import Mathlib

/-!
Shallow embedding of the xmsAI card game (src/gamemain.py) and its tabular
Q-learning trainer (src/card_recommendation.py).

Conventions of the embedding:
* Python `int` is `Int`; the PRNG float values written into `shuffle_random`
  and the Q-learning reals are modelled as `ℚ`.
* `random.shuffle` (used by `GameState.draw_cards` when it rebuilds the draw
  pile from the discard pile) permutes the list in place, driven by the PRNG
  stream.  It is modelled by `random_shuffle`: a seed list picks, position by
  position, which remaining element comes next, so every permutation is a
  possible outcome and the result is a deterministic function of the seeds.
* `math.floor(base * 1.5)` is modelled exactly as `Int.floor ((base : ℚ) * (3 / 2))`.
* The mutable `buffs` dictionary has the fixed keys "出牌机会", "集中", "好调";
  they become the fields `play_count`, `focus`, `mood`.  `new_buffs["好调"]`
  becomes `new_mood`.
* Q-table rows (Python dicts) are association lists with first-match lookup
  and in-place overwrite, mirroring dict insertion-order semantics.
-/

/-- `EffectType` (gamemain.py lines 12-19).  The Chinese enum values are kept
as comments: 伤害 damage, 元气 spirit, 集中 focus, 抽牌 draw, 出牌机会
play_count, 好调 mood, 直接伤害 direct_damage. -/
inductive EffectType where
  | damage
  | spirit
  | focus
  | draw
  | play_count
  | mood
  | direct_damage
  deriving DecidableEq

/-- `Effect` dataclass (gamemain.py lines 25-29). -/
structure Effect where
  type : EffectType
  value : Int
  bypass_spirit : Bool := false
  deriving DecidableEq

/-- `Card` (gamemain.py lines 51-63).  `shuffle_random` is the transient value
rewritten by shuffles (0 at construction). -/
structure Card where
  name : String
  effects : List Effect
  cost : Int
  bypass_spirit : Bool := false
  shuffle_priority : ℚ := 0
  exhaust : Bool := false
  shuffle_random : ℚ := 0
  deriving DecidableEq

instance : Inhabited Card := ⟨{ name := "", effects := [], cost := 0 }⟩

/-- `Phase` enum (gamemain.py lines 7-10). -/
inductive Phase where
  | TURN_START
  | PLAYER_ACTION
  | TURN_END
  deriving DecidableEq

/-- `GameState` (gamemain.py lines 147-183).  `defense` is written by
`reset_for_new_round` and never read, exactly as in the source. -/
structure GameState where
  deck : List Card := []
  num_rounds : Int
  target_score : Int
  max_hand_size : Nat := 5
  current_round : Int := 1
  score : Int := 0
  spirit : Int := 0
  vitality : Int := 30
  current_phase : Phase := Phase.TURN_START
  hand : List Card := []
  draw_pile : List Card := []
  discard_pile : List Card := []
  exhaust_pile : List Card := []
  play_count : Int := 1
  focus : Int := 0
  mood : Int := 0
  new_mood : Bool := false
  defense : Int := 0
  log : List String := []
  is_first_shuffle : Bool := true
  deriving DecidableEq

/-- `Card.apply_cost` (gamemain.py lines 65-88): spirit is consumed first
unless the card bypasses spirit; any unpaid remainder comes from vitality,
which is never clamped. -/
def Card.apply_cost (c : Card) (s : GameState) : GameState × List String :=
  if c.bypass_spirit then
    ({ s with vitality := s.vitality - c.cost }, ["消耗体力 " ++ toString c.cost])
  else
    let spirit_reduction := min s.spirit c.cost
    let step1 : GameState × List String × Int :=
      if 0 < s.spirit then
        ({ s with spirit := s.spirit - spirit_reduction },
         ["消耗元气 " ++ toString spirit_reduction], c.cost - spirit_reduction)
      else (s, [], c.cost)
    if 0 < step1.2.2 then
      ({ step1.1 with vitality := step1.1.vitality - step1.2.2 },
       step1.2.1 ++ ["消耗体力 " ++ toString step1.2.2])
    else (step1.1, step1.2.1)

/-- One iteration of the `for effect in self.effects` dispatch in
`Card.apply_effects` (gamemain.py lines 97-142).  The if/elif chain has no
branch for `DRAW` or `DIRECT_DAMAGE`, so those kinds fall through unchanged
and unlogged. -/
def apply_one_effect (s : GameState) (e : Effect) : GameState × List String :=
  match e.type with
  | EffectType.damage =>
      let base_damage := e.value + s.focus
      let actual_damage : Int :=
        if 0 < s.mood then Int.floor ((base_damage : ℚ) * (3 / 2)) else base_damage
      ({ s with score := s.score + actual_damage },
       ["伤害" ++ toString e.value ++ "=" ++ toString actual_damage])
  | EffectType.spirit =>
      ({ s with spirit := s.spirit + e.value },
       ["元气" ++ toString e.value ++ "=" ++ toString (s.spirit + e.value)])
  | EffectType.focus =>
      ({ s with focus := s.focus + e.value },
       ["集中" ++ toString e.value ++ "=" ++ toString (s.focus + e.value)])
  | EffectType.mood =>
      if s.mood = 0 ∧ 0 < s.mood + e.value then
        ({ s with mood := s.mood + e.value, new_mood := true },
         ["好调" ++ toString e.value ++ "=" ++ toString (s.mood + e.value) ++ " (新获得)"])
      else
        ({ s with mood := s.mood + e.value },
         ["好调" ++ toString e.value ++ "=" ++ toString (s.mood + e.value)])
  | EffectType.play_count =>
      ({ s with play_count := s.play_count + e.value },
       ["出牌机会" ++ toString e.value])
  | EffectType.draw => (s, [])
  | EffectType.direct_damage => (s, [])

/-- The effect loop of `Card.apply_effects`, applied in declared order. -/
def apply_effects_list : List Effect → GameState → GameState × List String
  | [], s => (s, [])
  | e :: rest, s =>
      let step := apply_one_effect s e
      let done := apply_effects_list rest step.1
      (done.1, step.2 ++ done.2)

/-- `Card.apply_effects` (gamemain.py lines 90-144): cost first, then the
effects in order; returns the accumulated log entries. -/
def Card.apply_effects (c : Card) (s : GameState) : GameState × List String :=
  let costed := c.apply_cost s
  let effected := apply_effects_list c.effects costed.1
  (effected.1, costed.2 ++ effected.2)

/-- Pick-by-seed permutation: the model of `random.shuffle` (see the header
comment).  Position by position a seed selects which remaining element of the
list comes next; the fuel equals the list length at the call site. -/
def shuffle_pick : Nat → List Nat → List Card → List Card
  | 0, _, l => l
  | _ + 1, _, [] => []
  | n + 1, seeds, l =>
      let i := seeds.headD 0 % l.length
      l.getD i default :: shuffle_pick n (seeds.drop 1) (l.eraseIdx i)

/-- Model of `random.shuffle(self.draw_pile)` (gamemain.py line 212). -/
def random_shuffle (seeds : List Nat) (l : List Card) : List Card :=
  shuffle_pick l.length seeds l

/-- `GameState.draw_cards` (gamemain.py lines 204-216).  `seedss` supplies one
seed list per loop iteration, consumed only if that iteration rebuilds the
draw pile.  Python's `pop()` removes the last element and `append` adds to the
end of the hand. -/
def draw_cards : Nat → List (List Nat) → GameState → GameState
  | 0, _, s => s
  | n + 1, seedss, s =>
      if s.draw_pile = [] ∧ s.discard_pile = [] then s
      else
        let s1 :=
          if s.draw_pile = [] then
            { s with draw_pile := random_shuffle (seedss.headD []) s.discard_pile,
                     discard_pile := [] }
          else s
        let s2 :=
          if s1.hand.length < s1.max_hand_size then
            { s1 with hand := s1.hand ++ [s1.draw_pile.getLastD default],
                      draw_pile := s1.draw_pile.dropLast }
          else s1
        draw_cards n (seedss.drop 1) s2

/-- `GameState.reset_for_new_round` (gamemain.py lines 218-223). -/
def reset_for_new_round (s : GameState) : GameState :=
  { s with discard_pile := s.discard_pile ++ s.hand, hand := [],
           focus := 0, defense := 0 }

/-- `GameState.handle_phase_start` (gamemain.py lines 225-248): mood decay
(skipped once when newly acquired), remaining-plays reset to 1, draw 3. -/
def handle_phase_start (seedss : List (List Nat)) (s : GameState) :
    GameState × List String :=
  let decayed : GameState × List String :=
    if 0 < s.mood then
      if s.new_mood then
        ({ s with new_mood := false }, ["好调效果为新获得，跳过衰减"])
      else
        ({ s with mood := s.mood - 1 },
         ["好调效果衰减: " ++ toString s.mood ++ " -> " ++ toString (s.mood - 1)])
    else (s, [])
  let reset := { decayed.1 with play_count := 1 }
  let drawn := draw_cards 3 seedss reset
  (drawn, decayed.2 ++ ["抽取3张卡牌"])

/-- Descending order by `shuffle_random + shuffle_priority`: the key of the
first shuffle (`sort(key=..., reverse=True)`, gamemain.py line 195). -/
def by_key_desc (a b : Card) : Prop :=
  b.shuffle_random + b.shuffle_priority ≤ a.shuffle_random + a.shuffle_priority

instance : DecidableRel by_key_desc := fun _ _ =>
  inferInstanceAs (Decidable (_ ≤ _))

instance : IsTotal Card by_key_desc :=
  ⟨fun _ _ => le_total _ _⟩

instance : IsTrans Card by_key_desc :=
  ⟨fun _ _ _ h1 h2 => le_trans h2 h1⟩

/-- Descending order by `shuffle_random` alone: the key of every subsequent
shuffle (gamemain.py line 202). -/
def by_random_desc (a b : Card) : Prop :=
  b.shuffle_random ≤ a.shuffle_random

instance : DecidableRel by_random_desc := fun _ _ =>
  inferInstanceAs (Decidable (_ ≤ _))

instance : IsTotal Card by_random_desc :=
  ⟨fun _ _ => le_total _ _⟩

instance : IsTrans Card by_random_desc :=
  ⟨fun _ _ _ h1 h2 => le_trans h2 h1⟩

/-- `_initialize_draw_pile` (gamemain.py lines 185-202): assign each card a
fresh random value; on the first shuffle sort descending by
`shuffle_random + shuffle_priority` and zero out every priority, afterwards
sort descending by `shuffle_random` alone.  `rs` is the stream of fresh
random values, one per card position (Python's stable `sort` is modelled by
the stable `insertionSort`). -/
def initialize_draw_pile (rs : List ℚ) (s : GameState) : GameState :=
  let pile := s.deck.mapIdx fun i c => { c with shuffle_random := rs.getD i 0 }
  if s.is_first_shuffle then
    let sorted := pile.insertionSort by_key_desc
    { s with draw_pile := sorted.map fun c => { c with shuffle_priority := 0 },
             is_first_shuffle := false }
  else
    { s with draw_pile := pile.insertionSort by_random_desc }

/-- The subsequent-shuffle rule in isolation (the else branch of
`_initialize_draw_pile`, gamemain.py lines 200-202): assign fresh random
values and sort descending by the random value alone. -/
def subsequent_shuffle (rs : List ℚ) (pile : List Card) : List Card :=
  (pile.mapIdx fun i c => { c with shuffle_random := rs.getD i 0 }).insertionSort
    by_random_desc

/-- Card disposition of one play in `Game.play_turn` (gamemain.py lines
347-364): resolve cost+effects, append the log, remove the card from hand,
move it to the exhaust pile when its exhaust flag is set and to the discard
pile otherwise, decrement remaining plays.  `i` is the chosen hand index. -/
def game_play_card (s : GameState) (i : Nat) : GameState :=
  match s.hand[i]? with
  | none => s
  | some c =>
      let played := c.apply_effects s
      let s1 := { played.1 with log := played.1.log ++ played.2,
                                hand := played.1.hand.eraseIdx i }
      let s2 :=
        if c.exhaust then { s1 with exhaust_pile := s1.exhaust_pile ++ [c] }
        else { s1 with discard_pile := s1.discard_pile ++ [c] }
      { s2 with play_count := s2.play_count - 1 }

/-- One play of the trainer's inner loop (card_recommendation.py lines
129-155): resolve effects (log entries discarded), remove the card from hand,
ALWAYS append it to the discard pile (the exhaust flag is never consulted),
decrement remaining plays.  The Q-table update of the same loop body touches
only the agent's table, never the `GameState`; it is modelled separately by
`update_q_table`. -/
def trainer_play_card (s : GameState) (i : Nat) : GameState :=
  match s.hand[i]? with
  | none => s
  | some c =>
      let played := c.apply_effects s
      let s1 := { played.1 with hand := played.1.hand.eraseIdx i }
      let s2 := { s1 with discard_pile := s1.discard_pile ++ [c] }
      { s2 with play_count := s2.play_count - 1 }

/-- The inner play loop shared by `Game.play_turn` (gamemain.py line 336) and
the trainer (card_recommendation.py line 127): while remaining plays are
positive and the hand is non-empty, ask the policy for a card and play it via
`pc`.  The policy returns a hand index (reduced mod the hand size, mirroring
that both the interactive prompt and `choose_card` always designate an actual
hand card) or `none` to stop early (the interactive skip command / the
trainer's `if not selected_card` guard).  The fuel is the hand length at
entry; each play removes one card, so it suffices. -/
def play_loop (pc : GameState → Nat → GameState)
    (policy : GameState → Option Nat) : Nat → GameState → GameState
  | 0, s => s
  | f + 1, s =>
      if 0 < s.play_count ∧ s.hand ≠ [] then
        match policy s with
        | none => s
        | some i0 => play_loop pc policy f (pc s (i0 % s.hand.length))
      else s

/-- `Game.play_turn` driven by an abstract policy. -/
def play_turn (policy : GameState → Option Nat) (s : GameState) : GameState :=
  play_loop game_play_card policy s.hand.length s

/-- The trainer's inner play loop driven by an abstract policy. -/
def trainer_play_turn (policy : GameState → Option Nat) (s : GameState) : GameState :=
  play_loop trainer_play_card policy s.hand.length s

/-- The loop condition of `Game.start` (gamemain.py lines 391-393) and of the
trainer episode loop (card_recommendation.py lines 112-114). -/
def loop_cond (s : GameState) : Prop :=
  s.current_round ≤ s.num_rounds ∧ s.score < s.target_score ∧ 0 < s.vitality

instance (s : GameState) : Decidable (loop_cond s) := by
  unfold loop_cond
  infer_instance

/-- `self.state.current_phase = ...` assignments in the main loops. -/
def set_phase (p : Phase) (s : GameState) : GameState :=
  { s with current_phase := p }

/-- `self.state.log.extend(...)` / `self.state.log.append(...)`. -/
def append_log (entries : List String) (s : GameState) : GameState :=
  { s with log := s.log ++ entries }

/-- `self.state.current_round += 1` at the bottom of a cycle. -/
def advance_round (s : GameState) : GameState :=
  { s with current_round := s.current_round + 1 }

/-- One cycle of `Game.start` (gamemain.py lines 395-408): TURN_START
(phase-start handling, log appended), PLAYER_ACTION (inner play loop),
TURN_END (reset, end-of-round log), round counter advance. -/
def game_cycle (policy : GameState → Option Nat) (seedss : List (List Nat))
    (s : GameState) : GameState :=
  let started := handle_phase_start seedss (set_phase Phase.TURN_START s)
  let s2 := append_log started.2 started.1
  let s4 := play_turn policy (set_phase Phase.PLAYER_ACTION s2)
  let s6 := reset_for_new_round (set_phase Phase.TURN_END s4)
  advance_round (append_log ["回合 " ++ toString s6.current_round ++ " 结束"] s6)

/-- One cycle of the trainer episode loop (card_recommendation.py lines
116-163): identical phase sequence, but `handle_phase_start`'s log entries are
discarded and no end-of-round log entry is appended. -/
def trainer_cycle (policy : GameState → Option Nat) (seedss : List (List Nat))
    (s : GameState) : GameState :=
  let s2 := (handle_phase_start seedss (set_phase Phase.TURN_START s)).1
  let s4 := trainer_play_turn policy (set_phase Phase.PLAYER_ACTION s2)
  let s6 := reset_for_new_round (set_phase Phase.TURN_END s4)
  advance_round s6

/-- The while loop shared by `Game.start` and the trainer episode: run `step`
while `loop_cond` holds, counting the executed cycles.  `step` receives the
remaining fuel as an index so each cycle can consume its own randomness. -/
def run_loop (step : Nat → GameState → GameState) :
    Nat → GameState → GameState × Nat
  | 0, s => (s, 0)
  | f + 1, s =>
      if loop_cond s then
        let r := run_loop step f (step f s)
        (r.1, r.2 + 1)
      else (s, 0)

/-- `Game.start` main loop (gamemain.py lines 385-408) with the exact fuel
needed: the loop body increments `current_round`, so at most
`num_rounds + 1 - current_round` cycles can satisfy the condition. -/
def game_run (policy : GameState → Option Nat)
    (seedss : Nat → List (List Nat)) (s : GameState) : GameState × Nat :=
  run_loop (fun f t => game_cycle policy (seedss f) t)
    (s.num_rounds + 1 - s.current_round).toNat s

/-- The trainer episode loop (card_recommendation.py lines 112-163). -/
def trainer_run (policy : GameState → Option Nat)
    (seedss : Nat → List (List Nat)) (s : GameState) : GameState × Nat :=
  run_loop (fun f t => trainer_cycle policy (seedss f) t)
    (s.num_rounds + 1 - s.current_round).toNat s

/-- One entry of the `CARDS` template list in `create_base_deck`
(gamemain.py lines 434-497). -/
structure CardData where
  name : String
  effects : List Effect
  cost : Int
  count : Nat := 1
  traits : List String := []
  shuffle_priority : ℚ := 0

/-- The `CARDS` template list (gamemain.py lines 434-497), verbatim. -/
def CARDS : List CardData :=
  [{ name := "进攻", effects := [⟨EffectType.damage, 9, false⟩], cost := 4, count := 2 },
   { name := "防御", effects := [⟨EffectType.spirit, 4, false⟩], cost := 0, count := 2 },
   { name := "集中",
     effects := [⟨EffectType.spirit, 2, false⟩, ⟨EffectType.focus, 2, false⟩],
     cost := 1, count := 2 },
   { name := "双击",
     effects := [⟨EffectType.damage, 9, false⟩, ⟨EffectType.damage, 9, false⟩],
     cost := 7, traits := ["消耗"] },
   { name := "沉静意志1",
     effects := [⟨EffectType.focus, 4, false⟩, ⟨EffectType.mood, 3, false⟩],
     cost := 2, traits := ["消耗"], shuffle_priority := -1 },
   { name := "测试",
     effects := [⟨EffectType.damage, 9, false⟩, ⟨EffectType.focus, 2, false⟩,
                 ⟨EffectType.damage, 9, false⟩],
     cost := 4, traits := ["消耗"] },
   { name := "舍身一击", effects := [⟨EffectType.damage, 15, false⟩], cost := 6,
     traits := ["消耗", "无视元气"] },
   { name := "爆发", effects := [⟨EffectType.damage, 20, false⟩], cost := 8,
     traits := ["消耗", "无视元气"] }]

/-- The `Card(...)` construction inside `create_base_deck` (gamemain.py lines
510-517): trait strings become the two Boolean flags. -/
def card_of_data (d : CardData) : Card :=
  { name := d.name, effects := d.effects, cost := d.cost,
    bypass_spirit := d.traits.contains "无视元气",
    shuffle_priority := d.shuffle_priority,
    exhaust := d.traits.contains "消耗" }

/-- The deck-building loop of `create_base_deck` (gamemain.py lines 499-523)
with Python object identity made explicit: per template ONE `Card` object is
constructed and stored (its id is its index in the store), and the same id is
appended to the deck `count` times, exactly as
`for _ in range(count): deck.append(card)` appends `count` references to one
object.  The result is (deck slots as object ids, object store). -/
def build_deck (ds : List CardData) : List Nat × List Card :=
  ds.foldl
    (fun acc d => (acc.1 ++ List.replicate d.count acc.2.length,
                   acc.2 ++ [card_of_data d]))
    ([], [])

/-- `create_base_deck` (gamemain.py lines 419-523). -/
def create_base_deck : List Nat × List Card :=
  build_deck CARDS

/-- Write `shuffle_random` through a deck slot: mutates the slot's object in
the store (the effect of `card.shuffle_random = ...` on a shared object). -/
def set_shuffle_random (store : List Card) (id : Nat) (q : ℚ) : List Card :=
  match store[id]? with
  | some c => store.set id { c with shuffle_random := q }
  | none => store

/-- Read `shuffle_random` through a deck slot. -/
def read_shuffle_random (store : List Card) (id : Nat) : Option ℚ :=
  (store[id]?).map fun c => c.shuffle_random

/-- First-match lookup in an association list: Python `dict` access. -/
def dict_find? {β : Type} (l : List (String × β)) (k : String) : Option β :=
  (l.find? fun p => p.1 == k).map Prod.snd

/-- In-place overwrite of the first matching key, appending at the end when
the key is absent: Python `dict` assignment with insertion order. -/
def dict_set {β : Type} : List (String × β) → String → β → List (String × β)
  | [], k, v => [(k, v)]
  | p :: rest, k, v =>
      if p.1 == k then (k, v) :: rest else p :: dict_set rest k v

/-- `.get(key, 0)` on a Q-table row. -/
def dict_get (row : List (String × ℚ)) (k : String) : ℚ :=
  (dict_find? row k).getD 0

/-- `{card.name: 0 for card in deck}` (card_recommendation.py lines 67-69):
a fresh all-zero row keyed by the deck's card names. -/
def init_row (deck : List Card) : List (String × ℚ) :=
  deck.foldl (fun r c => dict_set r c.name 0) []

/-- The Q-table: state fingerprint → row. -/
def QTable : Type := List (String × List (String × ℚ))

/-- `if state not in self.q_table: self.q_table[state] = {…}`. -/
def ensure_row (deck : List Card) (qt : QTable) (k : String) : QTable :=
  if (dict_find? qt k).isSome then qt else dict_set qt k (init_row deck)

/-- `max(row.values())` (card_recommendation.py line 73).  Python raises on an
empty dict; the 0 in the `[]` case is never exercised by the program (rows are
initialized from the non-empty deck or a non-empty hand). -/
def row_max : List (String × ℚ) → ℚ
  | [] => 0
  | p :: rest => rest.foldl (fun m q => max m q.2) p.2

/-- `CardRecommendationAgent.update_q_table` (card_recommendation.py lines
56-79): lazily initialize both rows from the deck, then
newQ = oldQ + lr * (reward + df * max(nextRow) - oldQ), stored at
(prev, card.name). -/
def update_q_table (deck : List Card) (lr df : ℚ) (qt : QTable)
    (prev curr : String) (card : Card) (reward : ℚ) : QTable :=
  let qt1 := ensure_row deck qt prev
  let qt2 := ensure_row deck qt1 curr
  let current_q := dict_get ((dict_find? qt2 prev).getD []) card.name
  let max_next_q := row_max ((dict_find? qt2 curr).getD [])
  let new_q := current_q + lr * (reward + df * max_next_q - current_q)
  dict_set qt2 prev (dict_set ((dict_find? qt2 prev).getD []) card.name new_q)

/-- The reward computed by the trainer after a play
(card_recommendation.py line 144): the current absolute score, not a delta. -/
def trainer_reward (s : GameState) : ℚ :=
  (s.score : ℚ)

/-! ### Concrete fixtures for counterexamples and witnesses -/

/-- The 双击 card of the base deck: two 9-damage effects, cost 7, exhaust. -/
def c1_double_tap : Card :=
  { name := "双击",
    effects := [⟨EffectType.damage, 9, false⟩, ⟨EffectType.damage, 9, false⟩],
    cost := 7, exhaust := true }

/-- A state about to play the exhaust card 双击 from a one-card hand. -/
def c1_state : GameState :=
  { num_rounds := 9, target_score := 90, vitality := 30, hand := [c1_double_tap] }

/-- A state whose hand is at the cap (1) while the draw pile holds a card. -/
def c2_state : GameState :=
  { num_rounds := 9, target_score := 90, max_hand_size := 1, vitality := 30,
    hand := [{ name := "手牌", effects := [], cost := 0 }],
    draw_pile := [{ name := "牌顶", effects := [], cost := 0 }] }

def c3_card_p : Card :=
  { name := "p", effects := [], cost := 0, shuffle_random := 1 / 5 }

def c3_card_q : Card :=
  { name := "q", effects := [], cost := 0, shuffle_random := 1 / 2 }

/-- Empty draw pile, two-card discard pile, hand at the (zero) cap: drawing
triggers exactly the rebuild and nothing else. -/
def c3_state : GameState :=
  { num_rounds := 9, target_score := 90, max_hand_size := 0, vitality := 30,
    discard_pile := [c3_card_p, c3_card_q] }

def c5_card : Card :=
  { name := "进攻", effects := [⟨EffectType.damage, 9, false⟩], cost := 4 }

def c5_state : GameState :=
  { num_rounds := 9, target_score := 90, spirit := 2, vitality := 30 }

def c7_gain_state : GameState :=
  { num_rounds := 9, target_score := 90, vitality := 30, mood := 0 }

def c7_new_state : GameState :=
  { num_rounds := 9, target_score := 90, vitality := 30, mood := 3, new_mood := true }

def c7_old_state : GameState :=
  { num_rounds := 9, target_score := 90, vitality := 30, mood := 2, new_mood := false }

def c8_card : Card := { name := "进攻", effects := [], cost := 4 }

def c8_deck : List Card := [c8_card]

def c9_policy : GameState → Option Nat := fun _ => none

def c9_seeds : Nat → List (List Nat) := fun _ => []

def c9_state : GameState := { num_rounds := 9, target_score := 90, vitality := 30 }

/-- A state already past the round limit: the loop condition is false. -/
def c9_done_state : GameState :=
  { num_rounds := 9, target_score := 90, vitality := 30, current_round := 10 }

/-! ### Shared frame and preservation lemmas -/

/-- Forget the three piles touched by `draw_cards`; equality of the erasures
says every other field is preserved. -/
def GameState.erasePiles (s : GameState) : GameState :=
  { s with hand := [], draw_pile := [], discard_pile := [] }

theorem draw_cards_erasePiles (n : Nat) (seedss : List (List Nat)) (s : GameState) :
    (draw_cards n seedss s).erasePiles = s.erasePiles := by
  induction n generalizing seedss s with
  | zero => rfl
  | succ n ih =>
      rw [draw_cards]
      split
      · rfl
      · rw [ih]
        unfold GameState.erasePiles
        split <;> split <;> rfl

theorem draw_cards_mood (n : Nat) (seedss : List (List Nat)) (s : GameState) :
    (draw_cards n seedss s).mood = s.mood :=
  show (draw_cards n seedss s).erasePiles.mood = s.erasePiles.mood from
    congrArg GameState.mood (draw_cards_erasePiles n seedss s)

theorem draw_cards_new_mood (n : Nat) (seedss : List (List Nat)) (s : GameState) :
    (draw_cards n seedss s).new_mood = s.new_mood :=
  show (draw_cards n seedss s).erasePiles.new_mood = s.erasePiles.new_mood from
    congrArg GameState.new_mood (draw_cards_erasePiles n seedss s)

theorem draw_cards_play_count (n : Nat) (seedss : List (List Nat)) (s : GameState) :
    (draw_cards n seedss s).play_count = s.play_count :=
  show (draw_cards n seedss s).erasePiles.play_count = s.erasePiles.play_count from
    congrArg GameState.play_count (draw_cards_erasePiles n seedss s)

/-- The round bookkeeping read by the loop condition: everything inside a
cycle except the final round increment preserves it. -/
def round_sig (s : GameState) : Int × Int × Int :=
  (s.current_round, s.num_rounds, s.target_score)

theorem draw_cards_round_sig (n : Nat) (seedss : List (List Nat)) (s : GameState) :
    round_sig (draw_cards n seedss s) = round_sig s :=
  show round_sig (draw_cards n seedss s).erasePiles = round_sig s.erasePiles from
    congrArg (fun t => round_sig t) (draw_cards_erasePiles n seedss s)

/-- The fields never touched by cost or effect resolution. -/
def effect_frame (s : GameState) :
    List Card × List Card × List Card × List Card × Int × Int × Int × Nat × Phase × List String :=
  (s.hand, s.draw_pile, s.discard_pile, s.exhaust_pile,
   s.current_round, s.num_rounds, s.target_score, s.max_hand_size,
   s.current_phase, s.log)

theorem apply_cost_effect_frame (c : Card) (s : GameState) :
    effect_frame (c.apply_cost s).1 = effect_frame s := by
  unfold Card.apply_cost
  split
  · rfl
  · split <;> (dsimp only; split <;> rfl)

theorem apply_one_effect_effect_frame (s : GameState) (e : Effect) :
    effect_frame (apply_one_effect s e).1 = effect_frame s := by
  unfold apply_one_effect
  rcases e with ⟨t, v, b⟩
  cases t <;> dsimp only <;> first
    | rfl
    | (split <;> rfl)

theorem apply_effects_list_effect_frame (es : List Effect) (s : GameState) :
    effect_frame (apply_effects_list es s).1 = effect_frame s := by
  induction es generalizing s with
  | nil => rfl
  | cons e rest ih =>
      rw [apply_effects_list]
      dsimp only
      rw [ih, apply_one_effect_effect_frame]

theorem apply_effects_effect_frame (c : Card) (s : GameState) :
    effect_frame (c.apply_effects s).1 = effect_frame s := by
  unfold Card.apply_effects
  dsimp only
  rw [apply_effects_list_effect_frame, apply_cost_effect_frame]

theorem apply_effects_hand (c : Card) (s : GameState) :
    (c.apply_effects s).1.hand = s.hand :=
  congrArg (fun p => p.1) (apply_effects_effect_frame c s)

theorem apply_effects_round_sig (c : Card) (s : GameState) :
    round_sig (c.apply_effects s).1 = round_sig s := by
  have h := apply_effects_effect_frame c s
  unfold effect_frame at h
  unfold round_sig
  injection h with h1 h
  injection h with h2 h
  injection h with h3 h
  injection h with h4 h
  injection h with h5 h
  injection h with h6 h
  injection h with h7 h
  rw [h5, h6, h7]

theorem game_play_card_hand (s : GameState) (i : Nat) :
    (game_play_card s i).hand = s.hand.eraseIdx i := by
  unfold game_play_card
  cases h : s.hand[i]? with
  | none =>
      dsimp only
      exact (List.eraseIdx_eq_self.mpr (List.getElem?_eq_none_iff.mp h)).symm
  | some c =>
      dsimp only
      split <;> simp [apply_effects_hand]

theorem trainer_play_card_hand (s : GameState) (i : Nat) :
    (trainer_play_card s i).hand = s.hand.eraseIdx i := by
  unfold trainer_play_card
  cases h : s.hand[i]? with
  | none =>
      dsimp only
      exact (List.eraseIdx_eq_self.mpr (List.getElem?_eq_none_iff.mp h)).symm
  | some c =>
      simp [apply_effects_hand]

theorem game_play_card_round_sig (s : GameState) (i : Nat) :
    round_sig (game_play_card s i) = round_sig s := by
  unfold game_play_card
  cases h : s.hand[i]? with
  | none => rfl
  | some c =>
      have := apply_effects_round_sig c s
      dsimp only
      split <;> simpa [round_sig] using this

theorem trainer_play_card_round_sig (s : GameState) (i : Nat) :
    round_sig (trainer_play_card s i) = round_sig s := by
  unfold trainer_play_card
  cases h : s.hand[i]? with
  | none => rfl
  | some c =>
      have := apply_effects_round_sig c s
      simpa [round_sig] using this

theorem play_loop_round_sig (pc : GameState → Nat → GameState)
    (policy : GameState → Option Nat)
    (hpc : ∀ t i, round_sig (pc t i) = round_sig t) :
    ∀ (f : Nat) (s : GameState), round_sig (play_loop pc policy f s) = round_sig s := by
  intro f
  induction f with
  | zero => intro s; rfl
  | succ f ih =>
      intro s
      rw [play_loop]
      split
      · cases policy s with
        | none => rfl
        | some i0 => rw [ih, hpc]
      · rfl

/-- The exit condition of the inner play loop: either the while-condition is
false or the policy declined to pick a card. -/
def play_loop_done (policy : GameState → Option Nat) (s : GameState) : Prop :=
  ¬(0 < s.play_count ∧ s.hand ≠ []) ∨ policy s = none

theorem play_loop_exit (pc : GameState → Nat → GameState)
    (policy : GameState → Option Nat)
    (hpc : ∀ t i, (pc t i).hand = t.hand.eraseIdx i) :
    ∀ (f : Nat) (s : GameState), s.hand.length ≤ f →
      play_loop_done policy (play_loop pc policy f s) := by
  intro f
  induction f with
  | zero =>
      intro s hf
      have hnil : s.hand = [] := List.length_eq_zero.mp (Nat.le_zero.mp hf)
      rw [play_loop]
      exact Or.inl (fun hc => hc.2 hnil)
  | succ f ih =>
      intro s hf
      rw [play_loop]
      split
      · rename_i hcond
        cases hpol : policy s with
        | none => exact Or.inr hpol
        | some i0 =>
            apply ih
            have hpos : 0 < s.hand.length :=
              List.length_pos.mpr hcond.2
            have hi : i0 % s.hand.length < s.hand.length := Nat.mod_lt _ hpos
            rw [hpc, List.length_eraseIdx_of_lt hi]
            omega
      · rename_i hcond
        exact Or.inl hcond

theorem handle_phase_start_round_sig (seedss : List (List Nat)) (s : GameState) :
    round_sig (handle_phase_start seedss s).1 = round_sig s := by
  unfold handle_phase_start
  dsimp only
  rw [draw_cards_round_sig]
  split
  · split <;> rfl
  · rfl

theorem reset_for_new_round_round_sig (s : GameState) :
    round_sig (reset_for_new_round s) = round_sig s :=
  rfl

theorem round_sig_set_phase (p : Phase) (t : GameState) :
    round_sig (set_phase p t) = round_sig t :=
  rfl

theorem round_sig_append_log (entries : List String) (t : GameState) :
    round_sig (append_log entries t) = round_sig t :=
  rfl

theorem round_sig_reset (t : GameState) :
    round_sig (reset_for_new_round t) = round_sig t :=
  rfl

theorem round_sig_advance (t : GameState) :
    round_sig (advance_round t) =
      ((round_sig t).1 + 1, (round_sig t).2.1, (round_sig t).2.2) :=
  rfl

theorem game_cycle_round (policy : GameState → Option Nat)
    (seedss : List (List Nat)) (s : GameState) :
    round_sig (game_cycle policy seedss s) =
      (s.current_round + 1, s.num_rounds, s.target_score) := by
  unfold game_cycle play_turn
  dsimp only
  rw [round_sig_advance, round_sig_append_log, round_sig_reset, round_sig_set_phase,
      play_loop_round_sig game_play_card policy game_play_card_round_sig,
      round_sig_set_phase, round_sig_append_log, handle_phase_start_round_sig,
      round_sig_set_phase]
  rfl

theorem trainer_cycle_round (policy : GameState → Option Nat)
    (seedss : List (List Nat)) (s : GameState) :
    round_sig (trainer_cycle policy seedss s) =
      (s.current_round + 1, s.num_rounds, s.target_score) := by
  unfold trainer_cycle trainer_play_turn
  dsimp only
  rw [round_sig_advance, round_sig_reset, round_sig_set_phase,
      play_loop_round_sig trainer_play_card policy trainer_play_card_round_sig,
      round_sig_set_phase, handle_phase_start_round_sig, round_sig_set_phase]
  rfl

/-- With fuel at least `num_rounds + 1 - current_round`, `run_loop` reaches a
state falsifying the loop condition, and the executed cycle count never
exceeds that fuel: each cycle advances the round by one while preserving
`num_rounds` and `target_score`. -/
theorem run_loop_exit (step : Nat → GameState → GameState)
    (hstep : ∀ i t, round_sig (step i t) =
      (t.current_round + 1, t.num_rounds, t.target_score)) :
    ∀ (f : Nat) (s : GameState),
      (s.num_rounds + 1 - s.current_round).toNat ≤ f →
      ¬ loop_cond (run_loop step f s).1 ∧
        (run_loop step f s).2 ≤ (s.num_rounds + 1 - s.current_round).toNat := by
  intro f
  induction f with
  | zero =>
      intro s hf
      rw [run_loop]
      dsimp only
      constructor
      · intro hc
        unfold loop_cond at hc
        omega
      · exact Nat.zero_le _
  | succ f ih =>
      intro s hf
      rw [run_loop]
      split
      · rename_i hcond
        have hstep1 := hstep f s
        unfold round_sig at hstep1
        simp only [Prod.mk.injEq] at hstep1
        obtain ⟨g1, g2, g3⟩ := hstep1
        have hmeas : ((step f s).num_rounds + 1 - (step f s).current_round).toNat ≤ f := by
          rw [g1, g2]
          unfold loop_cond at hcond
          omega
        have hrec := ih (step f s) hmeas
        dsimp only
        refine ⟨hrec.1, ?_⟩
        have h2 := hrec.2
        rw [g1, g2] at h2
        unfold loop_cond at hcond
        omega
      · rename_i hcond
        exact ⟨hcond, Nat.zero_le _⟩

theorem getD_cons_eraseIdx_perm (l : List Card) (i : Nat) (h : i < l.length) :
    (l.getD i default :: l.eraseIdx i).Perm l := by
  induction l generalizing i with
  | nil => simp at h
  | cons a t ih =>
      cases i with
      | zero => simp
      | succ j =>
          simp only [List.getD_cons_succ, List.eraseIdx_cons_succ]
          have hj : j < t.length := by simpa using h
          exact (List.Perm.swap a (t.getD j default) (t.eraseIdx j)).trans
            ((ih j hj).cons a)

theorem shuffle_pick_perm (n : Nat) (seeds : List Nat) (l : List Card) :
    (shuffle_pick n seeds l).Perm l := by
  induction n generalizing seeds l with
  | zero => exact List.Perm.refl l
  | succ n ih =>
      cases l with
      | nil => exact List.Perm.refl []
      | cons a t =>
          rw [shuffle_pick]
          refine List.Perm.trans ?_ (getD_cons_eraseIdx_perm (a :: t)
            (seeds.headD 0 % (a :: t).length) (Nat.mod_lt _ (by simp)))
          exact (ih (seeds.drop 1) ((a :: t).eraseIdx (seeds.headD 0 % (a :: t).length))).cons _
          simp

/-- The model of `random.shuffle` always produces a permutation of its input,
and in particular never rewrites any card's fields. -/
theorem random_shuffle_perm (seeds : List Nat) (l : List Card) :
    (random_shuffle seeds l).Perm l :=
  shuffle_pick_perm l.length seeds l

/-- A draw iteration with a full hand and a non-empty draw pile changes
nothing: the `pop` is guarded by the hand-size check, so the card stays on the
draw pile. -/
theorem draw_cards_full_hand (n : Nat) (seedss : List (List Nat)) (s : GameState)
    (hfull : s.max_hand_size ≤ s.hand.length) (hpile : s.draw_pile ≠ []) :
    draw_cards n seedss s = s := by
  induction n generalizing seedss with
  | zero => rfl
  | succ n ih =>
      rw [draw_cards, if_neg (show ¬(s.draw_pile = [] ∧ s.discard_pile = []) from
        fun hc => hpile hc.1)]
      dsimp only
      rw [if_neg hpile]
      rw [if_neg (show ¬ s.hand.length < s.max_hand_size from by omega)]
      exact ih (seedss.drop 1)

/-- When the draw pile is empty, the discard pile non-empty and the hand full,
a draw rebuilds the draw pile from the whole discard pile (an arbitrary
permutation of it, cards untouched), clears the discard pile, and changes
nothing else. -/
theorem draw_cards_rebuild (n : Nat) (seedss : List (List Nat)) (s : GameState)
    (hfull : s.max_hand_size ≤ s.hand.length) (hpile : s.draw_pile = [])
    (hdisc : s.discard_pile ≠ []) :
    draw_cards (n + 1) seedss s =
      { s with draw_pile := random_shuffle (seedss.headD []) s.discard_pile,
               discard_pile := [] } := by
  rw [draw_cards, if_neg (show ¬(s.draw_pile = [] ∧ s.discard_pile = []) from
    fun hc => hdisc hc.2)]
  dsimp only
  rw [if_pos hpile]
  dsimp only
  rw [if_neg (show ¬ s.hand.length < s.max_hand_size from by omega)]
  apply draw_cards_full_hand
  · exact hfull
  · dsimp only
    intro hnil
    have := (random_shuffle_perm (seedss.headD []) s.discard_pile).length_eq
    rw [hnil] at this
    exact hdisc (List.length_eq_zero.mp this.symm)

theorem handle_phase_start_new_mood_case (seedss : List (List Nat)) (s : GameState)
    (hm : 0 < s.mood) (hn : s.new_mood = true) :
    (handle_phase_start seedss s).1.mood = s.mood ∧
      (handle_phase_start seedss s).1.new_mood = false ∧
      (handle_phase_start seedss s).1.play_count = 1 := by
  unfold handle_phase_start
  dsimp only
  rw [if_pos hm, if_pos (by rw [hn])]
  refine ⟨?_, ?_, ?_⟩
  · rw [draw_cards_mood]
  · rw [draw_cards_new_mood]
  · rw [draw_cards_play_count]

theorem handle_phase_start_decay_case (seedss : List (List Nat)) (s : GameState)
    (hm : 0 < s.mood) (hn : s.new_mood = false) :
    (handle_phase_start seedss s).1.mood = s.mood - 1 ∧
      (handle_phase_start seedss s).1.new_mood = s.new_mood ∧
      (handle_phase_start seedss s).1.play_count = 1 := by
  unfold handle_phase_start
  dsimp only
  rw [if_pos hm, if_neg (by rw [hn]; exact fun h => Bool.false_ne_true h)]
  refine ⟨?_, ?_, ?_⟩
  · rw [draw_cards_mood]
  · rw [draw_cards_new_mood]
  · rw [draw_cards_play_count]

theorem handle_phase_start_no_mood_case (seedss : List (List Nat)) (s : GameState)
    (hm : ¬ 0 < s.mood) :
    (handle_phase_start seedss s).1.mood = s.mood ∧
      (handle_phase_start seedss s).1.new_mood = s.new_mood ∧
      (handle_phase_start seedss s).1.play_count = 1 := by
  unfold handle_phase_start
  dsimp only
  rw [if_neg hm]
  refine ⟨?_, ?_, ?_⟩
  · rw [draw_cards_mood]
  · rw [draw_cards_new_mood]
  · rw [draw_cards_play_count]

theorem dict_find?_set {β : Type} (l : List (String × β)) (k : String) (v : β) :
    dict_find? (dict_set l k v) k = some v := by
  induction l with
  | nil => simp [dict_set, dict_find?, List.find?]
  | cons p rest ih =>
      rw [dict_set]
      split
      · simp [dict_find?, List.find?]
      · rename_i hne
        unfold dict_find? at ih ⊢
        rw [List.find?]
        simp only [hne]
        exact ih

/-- The subsequent-shuffle rule always yields a pile sorted descending by the
cards' `shuffle_random` values. -/
theorem subsequent_shuffle_sorted (rs : List ℚ) (pile : List Card) :
    (subsequent_shuffle rs pile).Sorted by_random_desc :=
  List.sorted_insertionSort by_random_desc _

/-- Closed form of the deck builder: the slot list enumerates, template by
template, one object id repeated `count` times; the store holds exactly one
constructed card per template. -/
theorem build_deck_go (ds : List CardData) (slots : List Nat) (store : List Card) :
    ds.foldl
      (fun acc d => (acc.1 ++ List.replicate d.count acc.2.length,
                     acc.2 ++ [card_of_data d]))
      (slots, store) =
    (slots ++ ((List.enumFrom store.length ds).flatMap fun p => List.replicate p.2.count p.1),
     store ++ ds.map card_of_data) := by
  induction ds generalizing slots store with
  | nil => simp
  | cons d rest ih =>
      rw [List.foldl_cons, ih]
      simp [List.enumFrom_cons, List.append_assoc]

theorem build_deck_eq (ds : List CardData) :
    build_deck ds =
      (ds.enum.flatMap fun p => List.replicate p.2.count p.1,
       ds.map card_of_data) := by
  unfold build_deck
  rw [build_deck_go ds [] []]
  simp [List.enum]

theorem build_deck_length (ds : List CardData) :
    (build_deck ds).1.length = (ds.map fun d => d.count).sum := by
  rw [build_deck_eq]
  dsimp only
  rw [List.length_flatMap]
  have h : ds.enum.map (List.length ∘ fun p => List.replicate p.2.count p.1) =
      ds.enum.map fun p => p.2.count := by
    simp [Function.comp]
  rw [h]
  have h2 : ds.enum.map (fun p => p.2.count) =
      (ds.enum.map Prod.snd).map fun d => d.count := by
    rw [List.map_map]
    rfl
  rw [h2, List.enum_map_snd]

/-! ### Claim theorems -/

/-- C1: at the same state and card choice, the interactive game
(`Game.play_turn`) moves the exhaust-flagged 双击 to the exhaust pile and not
to the discard pile, while the trainer loop body appends it to the discard
pile and leaves the exhaust pile empty — so the trainer does NOT drive the
same state transitions as the interactive game and an exhaust card re-enters
future draws.  This evaluates both play steps at the failing input of the
code_bug verdict. -/
theorem c1_trainer_exhaust_divergence :
    c1_double_tap.exhaust = true ∧
    (game_play_card c1_state 0).exhaust_pile = [c1_double_tap] ∧
    (game_play_card c1_state 0).discard_pile = [] ∧
    (trainer_play_card c1_state 0).discard_pile = [c1_double_tap] ∧
    (trainer_play_card c1_state 0).exhaust_pile = [] :=
  ⟨rfl, rfl, rfl, rfl, rfl⟩

/-- C2 (counterexample): with the hand at its cap and a non-empty draw pile,
`draw_cards` leaves the whole state — in particular the draw pile — unchanged;
the top card is NOT removed, contradicting the claimed "removed from the draw
pile but not added to the hand" behavior. -/
theorem c2_counterexample :
    c2_state.hand.length = c2_state.max_hand_size ∧
    c2_state.draw_pile ≠ [] ∧
    draw_cards 1 [] c2_state = c2_state ∧
    (draw_cards 1 [] c2_state).draw_pile ≠ c2_state.draw_pile.dropLast :=
  ⟨rfl, by decide, rfl, by decide⟩

/-- C2 (amended): when the hand already holds at least `max_hand_size` cards
and the draw pile is non-empty, every draw is skipped: the draw pile, hand and
everything else are left unchanged (the pop is guarded by the hand-size
check). -/
theorem c2_draw_capped_skips (n : Nat) (seedss : List (List Nat)) (s : GameState)
    (hfull : s.max_hand_size ≤ s.hand.length) (hpile : s.draw_pile ≠ []) :
    draw_cards n seedss s = s :=
  draw_cards_full_hand n seedss s hfull hpile

theorem c2_witness :
    c2_state.max_hand_size ≤ c2_state.hand.length ∧
    c2_state.draw_pile ≠ [] ∧
    draw_cards 3 [] c2_state = c2_state :=
  ⟨by decide, by decide, c2_draw_capped_skips 3 [] c2_state (by decide) (by decide)⟩

/-- C3 (counterexample): a mid-draw rebuild can deliver the discard pile in
its original order with the cards' `shuffle_random` values untouched
(`1/5` then `1/2`), an ordering that is strictly ascending in
`shuffle_random` — impossible under the claimed subsequent-shuffle rule,
which always sorts the rebuilt pile descending by the per-card random value. -/
theorem c3_counterexample :
    (draw_cards 1 [[]] c3_state).draw_pile = [c3_card_p, c3_card_q] ∧
    (draw_cards 1 [[]] c3_state).draw_pile.map (fun c => c.shuffle_random) =
      c3_state.discard_pile.map (fun c => c.shuffle_random) ∧
    ¬ List.Sorted by_random_desc (draw_cards 1 [[]] c3_state).draw_pile := by
  refine ⟨rfl, rfl, ?_⟩
  intro hsort
  have he : (draw_cards 1 [[]] c3_state).draw_pile = [c3_card_p, c3_card_q] := rfl
  rw [he] at hsort
  have hrel := List.rel_of_sorted_cons hsort c3_card_q (by simp)
  unfold by_random_desc at hrel
  norm_num [c3_card_p, c3_card_q] at hrel

/-- C3 (amended): when the draw pile empties during a draw and the discard
pile is non-empty, all discard cards move into the draw pile and the rebuilt
pile is an arbitrary in-place random permutation of the discard pile
(`random.shuffle`): cards keep their fields, no fresh `shuffle_random` is
assigned and no descending sort is applied.  (Stated with the hand at its cap,
which isolates the rebuild from the subsequent pop.)  By contrast the
subsequent-shuffle rule of `_initialize_draw_pile` always yields a pile sorted
descending by the per-card random value. -/
theorem c3_rebuild_random_shuffle (n : Nat) (seedss : List (List Nat)) (s : GameState)
    (hfull : s.max_hand_size ≤ s.hand.length) (hpile : s.draw_pile = [])
    (hdisc : s.discard_pile ≠ []) :
    (draw_cards (n + 1) seedss s).draw_pile.Perm s.discard_pile ∧
    (draw_cards (n + 1) seedss s).discard_pile = [] ∧
    (draw_cards (n + 1) seedss s).hand = s.hand ∧
    (∀ (rs : List ℚ) (pile : List Card),
      (subsequent_shuffle rs pile).Sorted by_random_desc) := by
  rw [draw_cards_rebuild n seedss s hfull hpile hdisc]
  exact ⟨random_shuffle_perm _ _, rfl, rfl, fun rs pile => subsequent_shuffle_sorted rs pile⟩

theorem c3_witness :
    c3_state.max_hand_size ≤ c3_state.hand.length ∧
    c3_state.draw_pile = [] ∧
    c3_state.discard_pile ≠ [] ∧
    ((draw_cards 1 [[]] c3_state).draw_pile.Perm c3_state.discard_pile ∧
     (draw_cards 1 [[]] c3_state).discard_pile = [] ∧
     (draw_cards 1 [[]] c3_state).hand = c3_state.hand ∧
     (∀ (rs : List ℚ) (pile : List Card),
       (subsequent_shuffle rs pile).Sorted by_random_desc)) :=
  ⟨by decide, rfl, by decide,
   c3_rebuild_random_shuffle 0 [[]] c3_state (by decide) rfl (by decide)⟩

/-- C4 (counterexample): deck slots 0 and 1 — the two copies of 进攻 — hold
the SAME object id; writing `shuffle_random := 1` through slot 0 is read back
through slot 1 (whose object previously carried 0).  Hence two deck slots
alias one mutable card object and mutating one copy's transient
`shuffle_random` does change the other copy's. -/
theorem c4_counterexample :
    create_base_deck.1.getD 0 99 = create_base_deck.1.getD 1 99 ∧
    read_shuffle_random create_base_deck.2 (create_base_deck.1.getD 1 99) = some 0 ∧
    read_shuffle_random
        (set_shuffle_random create_base_deck.2 (create_base_deck.1.getD 0 99) 1)
        (create_base_deck.1.getD 1 99) = some 1 ∧
    (1 : ℚ) ≠ 0 :=
  ⟨rfl, rfl, rfl, by decide⟩

/-- C4 (amended): the deck size does equal the sum of the configured counts
(11 for the base deck), but the `count` copies of a template all alias one
single card object: the slot list repeats, template by template, one object id
`count` times, so a `shuffle_random` write through one copy is visible through
every copy of the same template. -/
theorem c4_deck_aliasing :
    (∀ ds : List CardData, (build_deck ds).1.length = (ds.map fun d => d.count).sum) ∧
    (∀ ds : List CardData,
      (build_deck ds).1 = ds.enum.flatMap fun p => List.replicate p.2.count p.1) ∧
    create_base_deck.1 = [0, 0, 1, 1, 2, 2, 3, 4, 5, 6, 7] ∧
    create_base_deck.1.length = (CARDS.map fun d => d.count).sum ∧
    (∀ q : ℚ, read_shuffle_random
        (set_shuffle_random create_base_deck.2 (create_base_deck.1.getD 0 99) q)
        (create_base_deck.1.getD 1 99) = some q) := by
  refine ⟨build_deck_length, ?_, by decide, build_deck_length CARDS, fun q => rfl⟩
  intro ds
  exact congrArg Prod.fst (build_deck_eq ds)

/-- C5: cost resolution.  For spirit `s ≥ 0` and cost `c ≥ 0`: a
spirit-bypassing card leaves spirit unchanged and pays the full cost from
vitality; otherwise the post-spirit is `max (s - c) 0` and vitality loses
`max (c - s) 0`.  Vitality is never floor-clamped (the equations hold even
when it goes negative), and cost resolution happens before any effect:
`apply_effects` is exactly `apply_cost` followed by the effect loop. -/
theorem c5_cost_resolution (c : Card) (s : GameState)
    (hs : 0 ≤ s.spirit) (hc : 0 ≤ c.cost) :
    (c.bypass_spirit = true →
      (c.apply_cost s).1.spirit = s.spirit ∧
      (c.apply_cost s).1.vitality = s.vitality - c.cost) ∧
    (c.bypass_spirit = false →
      (c.apply_cost s).1.spirit = max (s.spirit - c.cost) 0 ∧
      (c.apply_cost s).1.vitality = s.vitality - max (c.cost - s.spirit) 0) ∧
    c.apply_effects s =
      ((apply_effects_list c.effects (c.apply_cost s).1).1,
       (c.apply_cost s).2 ++ (apply_effects_list c.effects (c.apply_cost s).1).2) := by
  refine ⟨?_, ?_, rfl⟩
  · intro hb
    unfold Card.apply_cost
    rw [if_pos hb]
    exact ⟨rfl, rfl⟩
  · intro hb
    unfold Card.apply_cost
    rw [if_neg (show ¬ c.bypass_spirit = true by rw [hb]; exact Bool.false_ne_true)]
    dsimp only
    by_cases hsp : 0 < s.spirit
    · rw [if_pos hsp]
      dsimp only
      by_cases hrem : 0 < c.cost - min s.spirit c.cost
      · rw [if_pos hrem]
        constructor <;> dsimp only <;> omega
      · rw [if_neg hrem]
        constructor <;> dsimp only <;> omega
    · rw [if_neg hsp]
      dsimp only
      by_cases hrem : 0 < c.cost
      · rw [if_pos hrem]
        constructor <;> dsimp only <;> omega
      · rw [if_neg hrem]
        constructor <;> dsimp only <;> omega

theorem c5_witness :
    0 ≤ c5_state.spirit ∧ 0 ≤ c5_card.cost ∧
    ((c5_card.bypass_spirit = true →
      (c5_card.apply_cost c5_state).1.spirit = c5_state.spirit ∧
      (c5_card.apply_cost c5_state).1.vitality = c5_state.vitality - c5_card.cost) ∧
    (c5_card.bypass_spirit = false →
      (c5_card.apply_cost c5_state).1.spirit = max (c5_state.spirit - c5_card.cost) 0 ∧
      (c5_card.apply_cost c5_state).1.vitality =
        c5_state.vitality - max (c5_card.cost - c5_state.spirit) 0) ∧
    c5_card.apply_effects c5_state =
      ((apply_effects_list c5_card.effects (c5_card.apply_cost c5_state).1).1,
       (c5_card.apply_cost c5_state).2 ++
         (apply_effects_list c5_card.effects (c5_card.apply_cost c5_state).1).2)) :=
  ⟨by decide, by decide, c5_cost_resolution c5_card c5_state (by decide) (by decide)⟩

/-- C6: resolving a damage effect of magnitude `d` adds
`⌊(d + focus) * 1.5⌋` to the score when the mood buff is positive and
`d + focus` otherwise, and leaves the mood buff itself unchanged. -/
theorem c6_damage_scoring (s : GameState) (d : Int) (b : Bool) :
    (apply_one_effect s { type := EffectType.damage, value := d, bypass_spirit := b }).1.score =
      s.score +
        (if 0 < s.mood then Int.floor (((d + s.focus : Int) : ℚ) * (3 / 2))
         else d + s.focus) ∧
    (apply_one_effect s { type := EffectType.damage, value := d, bypass_spirit := b }).1.mood =
      s.mood :=
  ⟨rfl, rfl⟩

/-- C7: the mood lifecycle.  A mood gain applied at mood = 0 with positive
delta marks the buff "newly acquired"; the next TURN_START with positive mood
and the mark set clears the mark, skips the decrement once and resets
remaining plays to 1; any TURN_START with positive mood and the mark clear
decrements mood by exactly 1 and also resets remaining plays to 1. -/
theorem c7_mood_lifecycle (s t u : GameState) (v : Int)
    (seedss seedss2 : List (List Nat)) :
    (s.mood = 0 → 0 < v →
      (apply_one_effect s { type := EffectType.mood, value := v, bypass_spirit := false }).1.new_mood
          = true ∧
      (apply_one_effect s { type := EffectType.mood, value := v, bypass_spirit := false }).1.mood
          = v) ∧
    (0 < t.mood → t.new_mood = true →
      (handle_phase_start seedss t).1.mood = t.mood ∧
      (handle_phase_start seedss t).1.new_mood = false ∧
      (handle_phase_start seedss t).1.play_count = 1) ∧
    (0 < u.mood → u.new_mood = false →
      (handle_phase_start seedss2 u).1.mood = u.mood - 1 ∧
      (handle_phase_start seedss2 u).1.play_count = 1) := by
  refine ⟨?_, ?_, ?_⟩
  · intro h0 hv
    unfold apply_one_effect
    dsimp only
    rw [if_pos (show s.mood = 0 ∧ 0 < s.mood + v from ⟨h0, by omega⟩)]
    constructor
    · rfl
    · dsimp only
      omega
  · intro hm hn
    exact handle_phase_start_new_mood_case seedss t hm hn
  · intro hm hn
    have h := handle_phase_start_decay_case seedss2 u hm hn
    exact ⟨h.1, h.2.2⟩

theorem c7_witness :
    ((apply_one_effect c7_gain_state
        { type := EffectType.mood, value := 3, bypass_spirit := false }).1.new_mood = true ∧
     (apply_one_effect c7_gain_state
        { type := EffectType.mood, value := 3, bypass_spirit := false }).1.mood = 3) ∧
    ((handle_phase_start [] c7_new_state).1.mood = c7_new_state.mood ∧
     (handle_phase_start [] c7_new_state).1.new_mood = false ∧
     (handle_phase_start [] c7_new_state).1.play_count = 1) ∧
    ((handle_phase_start [] c7_old_state).1.mood = c7_old_state.mood - 1 ∧
     (handle_phase_start [] c7_old_state).1.play_count = 1) :=
  ⟨(c7_mood_lifecycle c7_gain_state c7_new_state c7_old_state 3 [] []).1 rfl (by decide),
   (c7_mood_lifecycle c7_gain_state c7_new_state c7_old_state 3 [] []).2.1 (by decide) rfl,
   (c7_mood_lifecycle c7_gain_state c7_new_state c7_old_state 3 [] []).2.2 (by decide) rfl⟩

/-- C8: the Q-table update.  After the two lazy row initializations, the value
stored at (prev, card.name) becomes
oldValue + lr * (reward + df * max(next row) - oldValue), and (for a non-zero
learning rate) it is unchanged exactly when
reward + df * max(next row) = oldValue.  The reward passed by the trainer is
the absolute score after the play (`trainer_reward t = t.score`), not a
score delta.  The hypothesis `hrow`
records that the next-state row is non-empty, which is what makes Python's
`max(...)` and hence this update defined. -/
theorem c8_q_update (deck : List Card) (lr df : ℚ) (qt : QTable)
    (prev curr : String) (card : Card) (reward : ℚ)
    (_hrow : (dict_find? (ensure_row deck (ensure_row deck qt prev) curr) curr).getD [] ≠ [])
    (hlr : lr ≠ 0) :
    dict_get ((dict_find? (update_q_table deck lr df qt prev curr card reward) prev).getD [])
        card.name =
      dict_get ((dict_find? (ensure_row deck (ensure_row deck qt prev) curr) prev).getD [])
          card.name +
        lr * (reward +
          df * row_max
            ((dict_find? (ensure_row deck (ensure_row deck qt prev) curr) curr).getD []) -
          dict_get ((dict_find? (ensure_row deck (ensure_row deck qt prev) curr) prev).getD [])
            card.name) ∧
    (dict_get ((dict_find? (update_q_table deck lr df qt prev curr card reward) prev).getD [])
        card.name =
      dict_get ((dict_find? (ensure_row deck (ensure_row deck qt prev) curr) prev).getD [])
          card.name ↔
      reward +
        df * row_max
          ((dict_find? (ensure_row deck (ensure_row deck qt prev) curr) curr).getD []) =
        dict_get ((dict_find? (ensure_row deck (ensure_row deck qt prev) curr) prev).getD [])
          card.name) ∧
    (∀ t : GameState, trainer_reward t = (t.score : ℚ)) := by
  have hupd :
      dict_get ((dict_find? (update_q_table deck lr df qt prev curr card reward) prev).getD [])
          card.name =
        dict_get ((dict_find? (ensure_row deck (ensure_row deck qt prev) curr) prev).getD [])
            card.name +
          lr * (reward +
            df * row_max
              ((dict_find? (ensure_row deck (ensure_row deck qt prev) curr) curr).getD []) -
            dict_get
              ((dict_find? (ensure_row deck (ensure_row deck qt prev) curr) prev).getD [])
              card.name) := by
    unfold update_q_table
    dsimp only
    unfold dict_get
    rw [dict_find?_set, Option.getD_some, dict_find?_set, Option.getD_some]
  refine ⟨hupd, ?_, fun t => rfl⟩
  rw [hupd]
  constructor
  · intro h
    have h2 : lr * (reward +
        df * row_max
          ((dict_find? (ensure_row deck (ensure_row deck qt prev) curr) curr).getD []) -
        dict_get ((dict_find? (ensure_row deck (ensure_row deck qt prev) curr) prev).getD [])
          card.name) = 0 := by linarith
    rcases mul_eq_zero.mp h2 with h3 | h3
    · exact absurd h3 hlr
    · linarith
  · intro h
    rw [h]
    ring

theorem c8_witness :
    (dict_find? (ensure_row c8_deck (ensure_row c8_deck [] "p") "c") "c").getD [] ≠ [] ∧
    (1 : ℚ) ≠ 0 ∧
    (dict_get ((dict_find? (update_q_table c8_deck 1 1 [] "p" "c" c8_card 5) "p").getD [])
        c8_card.name =
      dict_get ((dict_find? (ensure_row c8_deck (ensure_row c8_deck [] "p") "c") "p").getD [])
          c8_card.name +
        1 * (5 +
          1 * row_max ((dict_find? (ensure_row c8_deck (ensure_row c8_deck [] "p") "c") "c").getD []) -
          dict_get ((dict_find? (ensure_row c8_deck (ensure_row c8_deck [] "p") "c") "p").getD [])
            c8_card.name) ∧
    (dict_get ((dict_find? (update_q_table c8_deck 1 1 [] "p" "c" c8_card 5) "p").getD [])
        c8_card.name =
      dict_get ((dict_find? (ensure_row c8_deck (ensure_row c8_deck [] "p") "c") "p").getD [])
          c8_card.name ↔
      5 + 1 * row_max ((dict_find? (ensure_row c8_deck (ensure_row c8_deck [] "p") "c") "c").getD []) =
        dict_get ((dict_find? (ensure_row c8_deck (ensure_row c8_deck [] "p") "c") "p").getD [])
          c8_card.name) ∧
    (∀ t : GameState, trainer_reward t = (t.score : ℚ))) :=
  ⟨by decide, by decide, c8_q_update c8_deck 1 1 [] "p" "c" c8_card 5 (by decide) (by decide)⟩

/-- C9: termination.  Run with fuel `num_rounds + 1 - current_round` — the
most cycles the round counter allows — both the interactive loop and the
trainer loop reach a state falsifying the loop condition
(round > limit ∨ score ≥ target ∨ vitality ≤ 0), executing at most that many
cycles; when the condition is already false nothing runs (the terminal check
sits only between cycles); and the inner play loop, given fuel equal to the
hand size, always reaches its exit (remaining plays exhausted, empty hand, or
policy declined) because each play removes one card from the hand. -/
theorem c9_termination (policy : GameState → Option Nat)
    (seedss : Nat → List (List Nat)) (s : GameState) :
    (¬ loop_cond (game_run policy seedss s).1 ∧
      (game_run policy seedss s).2 ≤ (s.num_rounds + 1 - s.current_round).toNat) ∧
    (¬ loop_cond (trainer_run policy seedss s).1 ∧
      (trainer_run policy seedss s).2 ≤ (s.num_rounds + 1 - s.current_round).toNat) ∧
    (¬ loop_cond s →
      game_run policy seedss s = (s, 0) ∧ trainer_run policy seedss s = (s, 0)) ∧
    (∀ (f : Nat) (t : GameState), t.hand.length ≤ f →
      play_loop_done policy (play_loop game_play_card policy f t)) ∧
    (∀ (f : Nat) (t : GameState), t.hand.length ≤ f →
      play_loop_done policy (play_loop trainer_play_card policy f t)) := by
  refine ⟨?_, ?_, ?_, ?_, ?_⟩
  · exact run_loop_exit _ (fun i t => game_cycle_round policy (seedss i) t) _ s le_rfl
  · exact run_loop_exit _ (fun i t => trainer_cycle_round policy (seedss i) t) _ s le_rfl
  · intro hnc
    constructor
    · unfold game_run
      generalize (s.num_rounds + 1 - s.current_round).toNat = f
      cases f with
      | zero => rfl
      | succ f => rw [run_loop, if_neg hnc]
    · unfold trainer_run
      generalize (s.num_rounds + 1 - s.current_round).toNat = f
      cases f with
      | zero => rfl
      | succ f => rw [run_loop, if_neg hnc]
  · exact play_loop_exit game_play_card policy game_play_card_hand
  · exact play_loop_exit trainer_play_card policy trainer_play_card_hand

theorem c9_witness :
    ¬ loop_cond (game_run c9_policy c9_seeds c9_state).1 ∧
    ¬ loop_cond (trainer_run c9_policy c9_seeds c9_state).1 ∧
    game_run c9_policy c9_seeds c9_done_state = (c9_done_state, 0) ∧
    play_loop_done c9_policy (play_loop game_play_card c9_policy 0 c9_state) ∧
    play_loop_done c9_policy (play_loop trainer_play_card c9_policy 0 c9_state) :=
  ⟨(c9_termination c9_policy c9_seeds c9_state).1.1,
   (c9_termination c9_policy c9_seeds c9_state).2.1.1,
   ((c9_termination c9_policy c9_seeds c9_done_state).2.2.1 (by decide)).1,
   (c9_termination c9_policy c9_seeds c9_state).2.2.2.1 0 c9_state (by decide),
   (c9_termination c9_policy c9_seeds c9_state).2.2.2.2 0 c9_state (by decide)⟩

/-- C10: a draw-kind effect is silently ignored by the effect engine: applying
it returns the state unchanged with no log entry, and deleting it from any
position of a card's effect list changes nothing about effect resolution. -/
theorem c10_draw_effect_ignored (s : GameState) (v : Int) (b : Bool)
    (pre post : List Effect) :
    apply_one_effect s { type := EffectType.draw, value := v, bypass_spirit := b } = (s, []) ∧
    apply_effects_list
        (pre ++ { type := EffectType.draw, value := v, bypass_spirit := b } :: post) s =
      apply_effects_list (pre ++ post) s := by
  constructor
  · rfl
  · induction pre generalizing s with
    | nil => simp [apply_effects_list, apply_one_effect]
    | cons e rest ih =>
        rw [List.cons_append, List.cons_append, apply_effects_list, apply_effects_list]
        rw [ih]
